import Mathlib

/-!
# A shallow embedding of `src/lib/WireGuard.js` (wg-easy)

Modelling conventions:

* JavaScript epoch-millisecond timestamps are modelled as `Nat` (`Time`).
* A JavaScript value that may be `null`/`undefined` is modelled as an
  `Option`; `jsTemplate` reproduces how a template literal renders an
  `undefined` property (the string `"undefined"`).
* External capabilities (key generation via `wg genkey`, `crypto.randomUUID`,
  the system clock, the parsed `WG_DEFAULT_ADDRESS` subnet and the other
  environment settings) are passed to the modelled operations as explicit
  arguments; the operations themselves are translated from the source.
* Thrown JavaScript errors are modelled with `Except JsError`; the
  side-effecting external calls an operation performs before returning or
  throwing are recorded where a claim is about them (`Effect`).
-/

namespace WGEasy

abbrev Time := Nat

/-- Errors thrown by the source: `new Error(msg)`, `new ServerError(msg, code)`,
and the implicit `ReferenceError` raised when an undefined identifier is
evaluated. -/
inductive JsError where
  | error (msg : String)
  | serverError (msg : String) (code : Nat)
  | referenceError (ident : String)
  deriving Repr, DecidableEq

/-- How a JavaScript template literal renders a possibly-`undefined` value. -/
def jsTemplate : Option String → String
  | none => "undefined"
  | some s => s

/-- JavaScript truthiness of a possibly-absent string (`undefined` and `""`
are falsy). -/
def jsTruthyStr : Option String → Bool
  | none => false
  | some s => s ≠ ""

/-! ## The `ip` npm package (the parts the source uses) -/

/-- `ip.fromLong`: dotted-quad rendering of a 32-bit integer address. -/
def ipFromLong (n : Nat) : String :=
  toString (n / 2 ^ 24 % 256) ++ "." ++ toString (n / 2 ^ 16 % 256) ++ "."
    ++ toString (n / 2 ^ 8 % 256) ++ "." ++ toString (n % 256)

/-- The fields of `ip.cidrSubnet(...)` the source uses, kept as 32-bit
integers (`ip.toLong cidr.firstAddress` is then `firstAddressLong`). -/
structure SubnetInfo where
  firstAddressLong : Nat
  lastAddressLong : Nat
  deriving Repr, DecidableEq

/-- `ip.cidrSubnet` on a base address (as a 32-bit integer) and a mask
length: the first usable and last usable addresses of the subnet. -/
def cidrSubnet (baseLong : Nat) (maskBits : Nat) : SubnetInfo :=
  let blockSize := 2 ^ (32 - maskBits)
  let network := baseLong / blockSize * blockSize
  if blockSize ≤ 2 then
    { firstAddressLong := network, lastAddressLong := network + blockSize - 1 }
  else
    { firstAddressLong := network + 1, lastAddressLong := network + blockSize - 2 }

/-! ## Data model: the persisted/cached snapshot -/

/-- `config.server`.  The first-boot branch of `__buildConfig` stores the
subnet's first address under the property name `firstAddress` (object
shorthand), while `__saveConfig` reads `config.server.address`; both
properties are therefore modelled, each possibly absent. -/
structure Server where
  privateKey : String
  publicKey : String
  address : Option String
  firstAddress : Option String
  deriving Repr, DecidableEq

/-- One entry of `config.clients`. -/
structure Client where
  id : String
  name : String
  address : String
  privateKey : Option String
  publicKey : String
  preSharedKey : Option String
  createdAt : Time
  updatedAt : Time
  expiredAt : Option Time
  enabled : Bool
  oneTimeLink : Option String
  oneTimeLinkExpiresAt : Option Time
  deriving Repr, DecidableEq

/-- The registry snapshot: `{ server, clients }`.  `clients` is a JavaScript
object (string keys, insertion order preserved), modelled as an association
list. -/
structure Config where
  server : Server
  clients : List (String × Client)
  deriving Repr, DecidableEq

/-- The environment settings interpolated into the rendered `wg0.conf`. -/
structure Env where
  wgPort : String
  wgPreUp : String
  wgPostUp : String
  wgPreDown : String
  wgPostDown : String
  deriving Repr, DecidableEq

/-! ## `__saveConfig`: rendering the daemon config -/

/-- The `PresharedKey` line of a peer block, present only when
`client.preSharedKey` is truthy. -/
def pskLine : Option String → String
  | none => ""
  | some s => if s ≠ "" then "PresharedKey = " ++ s ++ "\n" else ""

/-- The `[Interface]` section rendered by `__saveConfig` (note the template
reads `config.server.address`). -/
def interfaceSection (env : Env) (server : Server) : String :=
  ("\n# Note: Do not edit this file directly.\n# Your changes will be overwritten!\n\n# Server\n[Interface]\nPrivateKey = "
      ++ server.privateKey ++ "\n")
    ++ ("Address = " ++ jsTemplate server.address)
    ++ ("\nListenPort = " ++ env.wgPort ++ "\nPreUp = " ++ env.wgPreUp
      ++ "\nPostUp = " ++ env.wgPostUp ++ "\nPreDown = " ++ env.wgPreDown
      ++ "\nPostDown = " ++ env.wgPostDown ++ "\n")

/-- One `[Peer]` block as appended by the loop in `__saveConfig`. -/
def peerSection (clientId : String) (c : Client) : String :=
  ("\n\n# Client: " ++ c.name ++ " (" ++ clientId ++ ")\n[Peer]\nPublicKey = "
      ++ c.publicKey ++ "\n" ++ pskLine c.preSharedKey)
    ++ ("AllowedIPs = " ++ (c.address ++ "/32"))

/-- The peer blocks `__saveConfig` appends: one per enabled client, in
`Object.entries` (insertion) order; disabled clients are skipped
(`if (!client.enabled) continue`). -/
def peerSections (cfg : Config) : List String :=
  (cfg.clients.filter fun kv => kv.2.enabled).map fun kv => peerSection kv.1 kv.2

/-- The full `wg0.conf` text written by `__saveConfig`. -/
def renderConfigFile (env : Env) (cfg : Config) : String :=
  interfaceSection env cfg.server ++ String.join (peerSections cfg)

/-! ## `__buildConfig`: first boot -/

/-- The key material obtained from the external `wg` commands. -/
structure KeyTriple where
  privateKey : String
  publicKey : String
  preSharedKey : String
  deriving Repr, DecidableEq

/-- The snapshot generated by `__buildConfig` when no persisted state
exists: a fresh keypair and — via object shorthand — a `firstAddress`
property (there is no `address` property on the generated server object). -/
def buildConfigFirstBoot (keys : KeyTriple) (sub : SubnetInfo) : Config :=
  { server :=
      { privateKey := keys.privateKey
        publicKey := keys.publicKey
        address := none
        firstAddress := some (ipFromLong sub.firstAddressLong) }
    clients := [] }

/-! ## `createClient` -/

/-- The external side effects `createClient` performs, in order, before
returning or throwing. -/
inductive Effect where
  | genPrivateKey
  | genPublicKey
  | genPresharedKey
  | persist
  deriving Repr, DecidableEq

/-- The `// Calculate next IP` loop of `createClient`.  The loop body
evaluates `Object.values(clients)`, but no identifier `clients` is in scope
anywhere in the file (the enclosing scope only has `config`, `name`,
`privateKey`, ...), so the first iteration throws a `ReferenceError`; if the
scan range is empty the loop body never runs, `address` stays undefined and
`new Error('Maximum number of clients reached.')` is thrown. -/
def calculateNextIp (sub : SubnetInfo) : Except JsError String :=
  if sub.firstAddressLong + 1 ≤ sub.lastAddressLong - 1 then
    .error (.referenceError "clients")
  else
    .error (.error "Maximum number of clients reached.")

/-- End-of-day normalization applied to `expiredDate`
(`setHours(23); setMinutes(59); setSeconds(59)`), with `dayStart` the
midnight of the given date in the server's time zone (milliseconds are left
untouched by the source; we take them as zero). -/
def normalizeExpiry (dayStart : Time) : Time :=
  dayStart + (23 * 3600 + 59 * 60 + 59) * 1000

/-- `createClient({ name, expiredDate })`, returning the outcome and the
list of external effects performed.  Fresh key material, the fresh UUID and
the current time are explicit arguments. -/
def createClient (cfg : Config) (name : String) (expiredDate : Option Time)
    (keys : KeyTriple) (freshId : String) (now : Time) (sub : SubnetInfo) :
    Except JsError (Config × Client) × List Effect :=
  if name = "" then
    (.error (.error "Missing: Name"), [])
  else
    let effects := [Effect.genPrivateKey, Effect.genPublicKey, Effect.genPresharedKey]
    match calculateNextIp sub with
    | .error e => (.error e, effects)
    | .ok address =>
      let client : Client :=
        { id := freshId
          name := name
          address := address
          privateKey := some keys.privateKey
          publicKey := keys.publicKey
          preSharedKey := some keys.preSharedKey
          createdAt := now
          updatedAt := now
          expiredAt := expiredDate.map normalizeExpiry
          enabled := true
          oneTimeLink := none
          oneTimeLinkExpiresAt := none }
      (.ok ({ cfg with clients := cfg.clients ++ [(freshId, client)] }, client),
        effects ++ [Effect.persist])

/-- The address scan as the specification describes it (and as upstream
wg-easy implements it, over `config.clients`): the lowest integer-encoded
address strictly between the subnet's first and last address that is not
already assigned to any client. -/
def calculateNextIpSpec (clients : List Client) (sub : SubnetInfo) : Option String :=
  (List.range' (sub.firstAddressLong + 1)
      (sub.lastAddressLong - 1 - sub.firstAddressLong)).findSome? fun i =>
    let currentIp := ipFromLong i
    if clients.any fun c => c.address = currentIp then none else some currentIp

/-! ## Per-client operations (`getClient` and the mutators)

Each mutator looks the client up (`getClient`, throwing a 404 `ServerError`
if absent), mutates the shared object in place (modelled as an update of the
association list at that key), and then persists via `saveConfig`; on
success the returned `Config` is the snapshot that was persisted. -/

def getClient (cfg : Config) (clientId : String) : Except JsError Client :=
  match cfg.clients.lookup clientId with
  | none => .error (.serverError ("Client Not Found: " ++ clientId) 404)
  | some c => .ok c

/-- In-place mutation of the client object stored under `clientId`. -/
def updateClientAt (cfg : Config) (clientId : String) (f : Client → Client) : Config :=
  { cfg with
    clients := cfg.clients.map fun kv => if kv.1 = clientId then (kv.1, f kv.2) else kv }

def enableClient (cfg : Config) (clientId : String) (now : Time) :
    Except JsError Config :=
  match getClient cfg clientId with
  | .error e => .error e
  | .ok _ => .ok (updateClientAt cfg clientId fun c =>
      { c with enabled := true, updatedAt := now })

def disableClient (cfg : Config) (clientId : String) (now : Time) :
    Except JsError Config :=
  match getClient cfg clientId with
  | .error e => .error e
  | .ok _ => .ok (updateClientAt cfg clientId fun c =>
      { c with enabled := false, updatedAt := now })

def updateClientName (cfg : Config) (clientId : String) (name : String) (now : Time) :
    Except JsError Config :=
  match getClient cfg clientId with
  | .error e => .error e
  | .ok _ => .ok (updateClientAt cfg clientId fun c =>
      { c with name := name, updatedAt := now })

/-- `eraseOneTimeLink`: the assignment `client.oneTimeLink = null` is
commented out in the source; the method only moves
`oneTimeLinkExpiresAt` to ten seconds from now and stamps `updatedAt`. -/
def eraseOneTimeLink (cfg : Config) (clientId : String) (now : Time) :
    Except JsError Config :=
  match getClient cfg clientId with
  | .error e => .error e
  | .ok _ => .ok (updateClientAt cfg clientId fun c =>
      { c with oneTimeLinkExpiresAt := some (now + 10 * 1000), updatedAt := now })

/-! ## `cronJobEveryMinute` -/

/-- `new Date(x).getTime()` for a possibly-`null` stored timestamp
(`new Date(null)` is the epoch). -/
def jsDateNum : Option Time → Time
  | none => 0
  | some t => t

/-- One client's step of the expiry sweep: skipped unless currently enabled;
disabled (and `updatedAt` stamped) when `expiredAt` is set and in the past.
The `Bool` reports whether the loop body set `needSaveConfig`. -/
def expiresSweepStep (now : Time) (c : Client) : Client × Bool :=
  if c.enabled = true then
    match c.expiredAt with
    | some t => if t < now then ({ c with enabled := false, updatedAt := now }, true) else (c, false)
    | none => (c, false)
  else (c, false)

/-- One client's step of the one-time-link sweep: when `oneTimeLink` is
non-null and `oneTimeLinkExpiresAt` is in the past, clear both fields and
stamp `updatedAt`. -/
def oneTimeLinkSweepStep (now : Time) (c : Client) : Client × Bool :=
  match c.oneTimeLink with
  | some _ =>
    if jsDateNum c.oneTimeLinkExpiresAt < now then
      ({ c with oneTimeLink := none, oneTimeLinkExpiresAt := none, updatedAt := now }, true)
    else (c, false)
  | none => (c, false)

/-- A sweep over all clients, accumulating whether any loop body fired. -/
def sweepClients (f : Client → Client × Bool) :
    List (String × Client) → List (String × Client) × Bool
  | [] => ([], false)
  | (k, c) :: rest =>
    let (c', fired) := f c
    let (rest', firedRest) := sweepClients f rest
    ((k, c') :: rest', fired || firedRest)

/-- `cronJobEveryMinute`: the expiry sweep (gated on
`WG_ENABLE_EXPIRES_TIME === 'true'`), then the one-time-link sweep (gated on
`WG_ENABLE_ONE_TIME_LINKS === 'true'`) over the already-updated clients,
then a single `saveConfig()` iff `needSaveConfig`.  The second component is
the number of `saveConfig` calls performed. -/
def cronJobEveryMinute (enableExpiresTime enableOneTimeLinks : String)
    (now : Time) (cfg : Config) : Config × Nat :=
  let (clients1, fired1) :=
    if enableExpiresTime = "true" then sweepClients (expiresSweepStep now) cfg.clients
    else (cfg.clients, false)
  let (clients2, fired2) :=
    if enableOneTimeLinks = "true" then sweepClients (oneTimeLinkSweepStep now) clients1
    else (clients1, false)
  ({ cfg with clients := clients2 }, if fired1 || fired2 then 1 else 0)

/-! ## `getClients`: the status merge

`getClients` first maps every registry client to a view object whose live
fields (`latestHandshakeAt`, `endpoint`, `transferRx/Tx`,
`persistentKeepalive`) start out `null`, then walks the lines of
`wg show wg0 dump` (header line dropped), merging each record onto the first
view with the same public key. -/

/-- A JavaScript `Date` object: either invalid (constructed from `NaN`) or a
point in time in epoch milliseconds. -/
inductive JsDate where
  | invalid
  | valid (ms : Int)
  deriving Repr, DecidableEq

/-- Value of a string of decimal digits (`none` on any non-digit). -/
def decDigitsVal (acc : Nat) : List Char → Option Nat
  | [] => some acc
  | c :: cs => if c.isDigit then decDigitsVal (acc * 10 + (c.toNat - 48)) cs else none

/-- `Number(s)` on the strings found in dump output (`""` is `0`, a string
of decimal digits is its value, anything else is `NaN`, i.e. `none`; full
JavaScript `Number` coercion also accepts signs, fractions and exponents,
which never occur in `wg show wg0 dump` fields). -/
def jsNumber (s : String) : Option Int :=
  match s.data with
  | [] => some 0
  | cs => (decDigitsVal 0 cs).map Int.ofNat

/-- `new Date(n)` from a number that may be `NaN`. -/
def jsNewDate : Option Int → JsDate
  | none => .invalid
  | some n => .valid n

/-- `String.prototype.split` with a one-character separator, on the
character list of the string. -/
def splitOnChar (sep : Char) : List Char → List (List Char)
  | [] => [[]]
  | c :: cs =>
    match splitOnChar sep cs with
    | [] => [[]]
    | field :: rest => if c = sep then [] :: field :: rest else (c :: field) :: rest

/-- `line.split('\t')` (JavaScript `split` with a single-character
separator). -/
def jsSplit (sep : Char) (s : String) : List String :=
  (splitOnChar sep s.data).map List.asString

/-- The whitespace characters `String.prototype.trim` strips from dump
output. -/
def isJsWhitespace (c : Char) : Bool :=
  c = ' ' || c = '\n' || c = '\t' || c = '\r'

/-- `dump.trim()`. -/
def jsTrim (s : String) : String :=
  (((s.data.dropWhile isJsWhitespace).reverse.dropWhile isJsWhitespace).reverse).asString

/-- The object `getClients` builds for each registry client before the dump
is merged: static fields copied from the client, live fields `null`. -/
structure ClientView where
  id : String
  name : String
  enabled : Bool
  address : String
  publicKey : String
  createdAt : Time
  updatedAt : Time
  expiredAt : Option Time
  oneTimeLink : Option String
  oneTimeLinkExpiresAt : Option Time
  downloadableConfig : Bool
  persistentKeepalive : Option String
  latestHandshakeAt : Option JsDate
  transferRx : Option Int
  transferTx : Option Int
  endpoint : Option String
  deriving Repr, DecidableEq

def toClientView (kv : String × Client) : ClientView :=
  { id := kv.1
    name := kv.2.name
    enabled := kv.2.enabled
    address := kv.2.address
    publicKey := kv.2.publicKey
    createdAt := kv.2.createdAt
    updatedAt := kv.2.updatedAt
    expiredAt := kv.2.expiredAt
    oneTimeLink := kv.2.oneTimeLink
    oneTimeLinkExpiresAt := kv.2.oneTimeLinkExpiresAt
    downloadableConfig := kv.2.privateKey.isSome
    persistentKeepalive := none
    latestHandshakeAt := none
    transferRx := none
    transferTx := none
    endpoint := none }

def initialViews (cfg : Config) : List ClientView :=
  cfg.clients.map toClientView

/-- `clients.find(...)` followed by in-place mutation: only the first
element satisfying the predicate is replaced. -/
def updateFirst {α : Type} (p : α → Bool) (f : α → α) : List α → List α
  | [] => []
  | x :: xs => if p x then f x :: xs else x :: updateFirst p f xs

/-- The value stored into `client.latestHandshakeAt`:
`latestHandshakeAt === '0' ? null : new Date(Number(latestHandshakeAt + '000'))`. -/
def mergeHandshake (h : String) : Option JsDate :=
  if h = "0" then none else some (jsNewDate (jsNumber (h ++ "000")))

/-- Merging one dump line (`forEach` body): destructure the tab-separated
fields, find the first view with that public key (a record matching no view
is dropped), and overwrite its live fields. -/
def applyDumpLine (views : List ClientView) (line : String) : List ClientView :=
  let fields := jsSplit '\t' line
  let publicKey := fields.getD 0 ""
  let endpoint := fields.getD 2 ""
  let latestHandshakeAt := fields.getD 4 ""
  let transferRx := fields.getD 5 ""
  let transferTx := fields.getD 6 ""
  let persistentKeepalive := fields.getD 7 ""
  updateFirst (fun v => v.publicKey = publicKey)
    (fun v =>
      { v with
        latestHandshakeAt := mergeHandshake latestHandshakeAt
        endpoint := if endpoint = "(none)" then none else some endpoint
        transferRx := jsNumber transferRx
        transferTx := jsNumber transferTx
        persistentKeepalive := some persistentKeepalive })
    views

/-- `getClients`, with the raw output of `wg show wg0 dump` as an explicit
argument: `dump.trim().split('\n').slice(1).forEach(mergeLine)`. -/
def getClients (cfg : Config) (dump : String) : List ClientView :=
  ((jsSplit '\n' (jsTrim dump)).drop 1).foldl applyDumpLine (initialViews cfg)

/-! ## `backupConfiguration` / `restoreConfiguration`

`backupConfiguration` is `JSON.stringify(config, null, 2)`;
`restoreConfiguration` is `JSON.parse` followed by `__saveConfig` (which
re-serializes the parsed object into `wg0.json`) and `__reloadConfig`
(which re-reads and re-parses `wg0.json` into the cache).  The text layer
is the platform's `JSON` object, an external capability for which `parse`
is a left inverse of `stringify`; the repository-owned content — how the
snapshot structure maps into and out of the JSON data model — is modelled
explicitly below. -/

/-- The JSON data model (the snapshot uses no arrays). -/
inductive Json where
  | null
  | bool (b : Bool)
  | num (n : Nat)
  | str (s : String)
  | obj (kvs : List (String × Json))

def optStrToJson : Option String → Json
  | none => .null
  | some s => .str s

def optNumToJson : Option Nat → Json
  | none => .null
  | some n => .num n

def serverToJson (s : Server) : Json :=
  .obj ([("privateKey", .str s.privateKey), ("publicKey", .str s.publicKey)]
    ++ (match s.address with | none => [] | some a => [("address", Json.str a)])
    ++ (match s.firstAddress with | none => [] | some a => [("firstAddress", Json.str a)]))

def clientToJson (c : Client) : Json :=
  .obj ([("id", .str c.id), ("name", .str c.name), ("address", .str c.address)]
    ++ (match c.privateKey with | none => [] | some s => [("privateKey", Json.str s)])
    ++ [("publicKey", .str c.publicKey)]
    ++ (match c.preSharedKey with | none => [] | some s => [("preSharedKey", Json.str s)])
    ++ [("createdAt", .num c.createdAt), ("updatedAt", .num c.updatedAt),
        ("expiredAt", optNumToJson c.expiredAt), ("enabled", .bool c.enabled),
        ("oneTimeLink", optStrToJson c.oneTimeLink),
        ("oneTimeLinkExpiresAt", optNumToJson c.oneTimeLinkExpiresAt)])

def configToJson (cfg : Config) : Json :=
  .obj [("server", serverToJson cfg.server),
        ("clients", .obj (cfg.clients.map fun kv => (kv.1, clientToJson kv.2)))]

def getStrField (kvs : List (String × Json)) (k : String) : Option String :=
  match kvs.lookup k with
  | some (.str s) => some s
  | _ => none

def getNumField (kvs : List (String × Json)) (k : String) : Option Nat :=
  match kvs.lookup k with
  | some (.num n) => some n
  | _ => none

def getBoolField (kvs : List (String × Json)) (k : String) : Option Bool :=
  match kvs.lookup k with
  | some (.bool b) => some b
  | _ => none

def getOptStrField (kvs : List (String × Json)) (k : String) : Option (Option String) :=
  match kvs.lookup k with
  | none => some none
  | some .null => some none
  | some (.str s) => some (some s)
  | _ => none

def getOptNumField (kvs : List (String × Json)) (k : String) : Option (Option Nat) :=
  match kvs.lookup k with
  | none => some none
  | some .null => some none
  | some (.num n) => some (some n)
  | _ => none

def serverOfJson : Json → Option Server
  | .obj kvs => do
    let privateKey ← getStrField kvs "privateKey"
    let publicKey ← getStrField kvs "publicKey"
    let address ← getOptStrField kvs "address"
    let firstAddress ← getOptStrField kvs "firstAddress"
    some { privateKey, publicKey, address, firstAddress }
  | _ => none

def clientOfJson : Json → Option Client
  | .obj kvs => do
    let id ← getStrField kvs "id"
    let name ← getStrField kvs "name"
    let address ← getStrField kvs "address"
    let privateKey ← getOptStrField kvs "privateKey"
    let publicKey ← getStrField kvs "publicKey"
    let preSharedKey ← getOptStrField kvs "preSharedKey"
    let createdAt ← getNumField kvs "createdAt"
    let updatedAt ← getNumField kvs "updatedAt"
    let expiredAt ← getOptNumField kvs "expiredAt"
    let enabled ← getBoolField kvs "enabled"
    let oneTimeLink ← getOptStrField kvs "oneTimeLink"
    let oneTimeLinkExpiresAt ← getOptNumField kvs "oneTimeLinkExpiresAt"
    some { id, name, address, privateKey, publicKey, preSharedKey, createdAt,
           updatedAt, expiredAt, enabled, oneTimeLink, oneTimeLinkExpiresAt }
  | _ => none

def clientsOfJson : List (String × Json) → Option (List (String × Client))
  | [] => some []
  | (k, j) :: rest => do
    let c ← clientOfJson j
    let cs ← clientsOfJson rest
    some ((k, c) :: cs)

def configOfJson : Json → Option Config
  | .obj kvs =>
    match kvs.lookup "server", kvs.lookup "clients" with
    | some sj, some (.obj cj) => do
      let server ← serverOfJson sj
      let clients ← clientsOfJson cj
      some { server, clients }
    | _, _ => none
  | _ => none

/-- `backupConfiguration()`: the serialized snapshot, at the JSON data
level. -/
def backupConfiguration (cfg : Config) : Json :=
  configToJson cfg

/-- `restoreConfiguration(config)`: parse the given serialization, persist
the parsed object, and reload the cache from what was persisted. -/
def restoreConfiguration (raw : Json) : Option Config :=
  match configOfJson raw with
  | none => none
  | some parsed => configOfJson (configToJson parsed)

/-! ## Sequences of enable/disable calls -/

/-- One `enableClient` (`true`) or `disableClient` (`false`) call at a given
time. -/
def applyToggle (cfg : Config) (clientId : String) : Bool × Time → Except JsError Config
  | (true, t) => enableClient cfg clientId t
  | (false, t) => disableClient cfg clientId t

/-- A sequence of `enableClient`/`disableClient` calls. -/
def applyToggles (cfg : Config) (clientId : String) :
    List (Bool × Time) → Except JsError Config
  | [] => .ok cfg
  | op :: ops =>
    match applyToggle cfg clientId op with
    | .error e => .error e
    | .ok cfg' => applyToggles cfg' clientId ops

/-! ## Concrete example values used in witnesses and counterexamples -/

def exKeys : KeyTriple :=
  { privateKey := "PRIV", publicKey := "PUB", preSharedKey := "PSK" }

def exServer : Server :=
  { privateKey := "SPRIV", publicKey := "SPUB", address := some "10.8.0.1",
    firstAddress := none }

def exEnv : Env :=
  { wgPort := "51820", wgPreUp := "", wgPostUp := "", wgPreDown := "",
    wgPostDown := "" }

/-- `ip.cidrSubnet('10.8.0.0/24')`. -/
def exSubnet : SubnetInfo := cidrSubnet (10 * 2 ^ 24 + 8 * 2 ^ 16) 24

def exClientA : Client :=
  { id := "idA", name := "Alice", address := "10.8.0.2",
    privateKey := some "APRIV", publicKey := "PKA", preSharedKey := some "APSK",
    createdAt := 0, updatedAt := 0, expiredAt := none, enabled := true,
    oneTimeLink := none, oneTimeLinkExpiresAt := none }

def exClientB : Client :=
  { exClientA with
    id := "idB", name := "Bob", address := "10.8.0.3",
    publicKey := "PKB", enabled := false }

/-- A snapshot with peer A enabled and peer B disabled. -/
def exCfgAB : Config :=
  { server := exServer, clients := [("idA", exClientA), ("idB", exClientB)] }

/-- A peer holding a live one-time link. -/
def exClientOtl : Client :=
  { exClientA with
    id := "c1", oneTimeLink := some "abc123",
    oneTimeLinkExpiresAt := some 1000 }

def exCfgOtl : Config :=
  { server := exServer, clients := [("c1", exClientOtl)] }

/-- A peer whose expiry is in the past next to one whose expiry is in the
future. -/
def exClientExpired : Client :=
  { exClientA with
    id := "e1", expiredAt := some 100 }

def exClientFuture : Client :=
  { exClientB with
    id := "e2", enabled := true, expiredAt := some 999999 }

def exCfgExpiry : Config :=
  { server := exServer, clients := [("e1", exClientExpired), ("e2", exClientFuture)] }

/-! ## Shared helper lemmas -/

theorem lookup_map_update (k : String) (f : Client → Client) :
    ∀ l : List (String × Client),
      (l.map fun kv => if kv.1 = k then (kv.1, f kv.2) else kv).lookup k
        = (l.lookup k).map f
  | [] => rfl
  | (a, c) :: rest => by
    have tail := lookup_map_update k f rest
    by_cases h : a = k
    · subst h
      simp only [List.map_cons, if_pos rfl]
      simp [List.lookup]
    · have hb : (k == a) = false := beq_eq_false_iff_ne.mpr (Ne.symm h)
      simp only [List.map_cons, if_neg h]
      simp [List.lookup, hb, tail]

theorem lookup_updateClientAt (cfg : Config) (clientId : String) (f : Client → Client) :
    (updateClientAt cfg clientId f).clients.lookup clientId
      = (cfg.clients.lookup clientId).map f :=
  lookup_map_update clientId f cfg.clients

theorem sweepClients_eq (f : Client → Client × Bool) :
    ∀ l : List (String × Client),
      sweepClients f l
        = (l.map fun kv => (kv.1, (f kv.2).1), l.any fun kv => (f kv.2).2)
  | [] => rfl
  | (k, c) :: rest => by
    simp [sweepClients, sweepClients_eq f rest]

theorem map_eq_self_forall {α : Type} {f : α → α} :
    ∀ {l : List α}, l.map f = l → ∀ x ∈ l, f x = x := by
  intro l
  induction l with
  | nil => simp
  | cons a l ih =>
    intro h x hx
    rw [List.map_cons, List.cons.injEq] at h
    rcases List.mem_cons.mp hx with rfl | hx
    · exact h.1
    · exact ih h.2 x hx

theorem updateFirst_no_match {α : Type} (p : α → Bool) (f : α → α) :
    ∀ l : List α, (∀ x ∈ l, p x = false) → updateFirst p f l = l
  | [] => fun _ => rfl
  | x :: xs => fun h => by
    simp [updateFirst, h x (by simp),
      updateFirst_no_match p f xs fun y hy => h y (by simp [hy])]

theorem updateFirst_first_match {α : Type} (p : α → Bool) (f : α → α) (v : α)
    (hv : p v = true) :
    ∀ l1 : List α, (∀ x ∈ l1, p x = false) → ∀ l2 : List α,
      updateFirst p f (l1 ++ v :: l2) = l1 ++ f v :: l2
  | [] => fun _ l2 => by simp [updateFirst, hv]
  | x :: xs => fun h l2 => by
    simp [updateFirst, h x (by simp),
      updateFirst_first_match p f v hv xs (fun y hy => h y (by simp [hy])) l2]

theorem updateFirst_length {α : Type} (p : α → Bool) (f : α → α) :
    ∀ l : List α, (updateFirst p f l).length = l.length
  | [] => rfl
  | x :: xs => by
    by_cases h : p x <;> simp [updateFirst, h, updateFirst_length p f xs]

theorem map_self_of_forall {α : Type} {f : α → α} :
    ∀ {l : List α}, (∀ x ∈ l, f x = x) → l.map f = l := by
  intro l h
  induction l with
  | nil => rfl
  | cons a t ih => simp [h a (by simp), ih fun x hx => h x (by simp [hx])]

theorem sweepClients_fst (f : Client → Client × Bool) (l : List (String × Client)) :
    (sweepClients f l).1 = l.map fun kv => (kv.1, (f kv.2).1) := by
  rw [sweepClients_eq]

theorem sweepClients_snd (f : Client → Client × Bool) (l : List (String × Client)) :
    (sweepClients f l).2 = l.any fun kv => (f kv.2).2 := by
  rw [sweepClients_eq]

theorem expiresSweepStep_fires (now : Time) (c : Client) (he : c.enabled = true)
    (t : Time) (hx : c.expiredAt = some t) (ht : t < now) :
    expiresSweepStep now c = ({ c with enabled := false, updatedAt := now }, true) := by
  simp [expiresSweepStep, he, hx, ht]

theorem expiresSweepStep_skips (now : Time) (c : Client)
    (h : ∀ t, c.expiredAt = some t → now ≤ t) :
    expiresSweepStep now c = (c, false) := by
  by_cases he : c.enabled = true
  · cases hx : c.expiredAt with
    | none => simp [expiresSweepStep, he, hx]
    | some t => simp [expiresSweepStep, he, hx, Nat.not_lt.mpr (h t hx)]
  · simp [expiresSweepStep, he]

theorem otlStep_skips (now : Time) (c : Client) (h : c.oneTimeLink = none) :
    oneTimeLinkSweepStep now c = (c, false) := by
  simp [oneTimeLinkSweepStep, h]

theorem otlStep_enabled (now : Time) (c : Client) :
    ((oneTimeLinkSweepStep now c).1).enabled = c.enabled := by
  cases h : c.oneTimeLink with
  | none => simp [oneTimeLinkSweepStep, h]
  | some s =>
    by_cases hd : jsDateNum c.oneTimeLinkExpiresAt < now <;>
      simp [oneTimeLinkSweepStep, h, hd]

theorem otlStep_updatedAt (now : Time) (c : Client) :
    ((oneTimeLinkSweepStep now c).1).updatedAt = c.updatedAt
    ∨ ((oneTimeLinkSweepStep now c).1).updatedAt = now := by
  cases h : c.oneTimeLink with
  | none => left; simp [oneTimeLinkSweepStep, h]
  | some s =>
    by_cases hd : jsDateNum c.oneTimeLinkExpiresAt < now
    · right; simp [oneTimeLinkSweepStep, h, hd]
    · left; simp [oneTimeLinkSweepStep, h, hd]

theorem expiresStep_of_flag_false (now : Time) (c : Client)
    (h : (expiresSweepStep now c).2 = false) : (expiresSweepStep now c).1 = c := by
  by_cases he : c.enabled = true
  · cases hx : c.expiredAt with
    | none => simp [expiresSweepStep, he, hx]
    | some t =>
      by_cases ht : t < now
      · rw [expiresSweepStep_fires now c he t hx ht] at h
        simp at h
      · simp [expiresSweepStep, he, hx, ht]
  · simp [expiresSweepStep, he]

theorem expiresStep_flag_of_fixed (now : Time) (c : Client)
    (h : (expiresSweepStep now c).1 = c) : (expiresSweepStep now c).2 = false := by
  by_cases he : c.enabled = true
  · cases hx : c.expiredAt with
    | none => simp [expiresSweepStep, he, hx]
    | some t =>
      by_cases ht : t < now
      · exfalso
        rw [expiresSweepStep_fires now c he t hx ht] at h
        have := congrArg Client.enabled h
        simp [he] at this
      · simp [expiresSweepStep, he, hx, ht]
  · simp [expiresSweepStep, he]

theorem otlStep_of_flag_false (now : Time) (c : Client)
    (h : (oneTimeLinkSweepStep now c).2 = false) : (oneTimeLinkSweepStep now c).1 = c := by
  cases hl : c.oneTimeLink with
  | none => simp [oneTimeLinkSweepStep, hl]
  | some s =>
    by_cases hd : jsDateNum c.oneTimeLinkExpiresAt < now
    · simp [oneTimeLinkSweepStep, hl, hd] at h
    · simp [oneTimeLinkSweepStep, hl, hd]

theorem comp_fixed (now : Time) (c : Client)
    (h : (oneTimeLinkSweepStep now (expiresSweepStep now c).1).1 = c) :
    (expiresSweepStep now c).2 = false
    ∧ (expiresSweepStep now c).1 = c
    ∧ (oneTimeLinkSweepStep now c).2 = false := by
  by_cases he : c.enabled = true
  · rcases hx : c.expiredAt with _ | t
    · have hE : expiresSweepStep now c = (c, false) :=
        expiresSweepStep_skips now c (by simp [hx])
      rw [hE] at h
      refine ⟨by simp [hE], by simp [hE], ?_⟩
      cases hl : c.oneTimeLink with
      | none => simp [oneTimeLinkSweepStep, hl]
      | some s =>
        by_cases hd : jsDateNum c.oneTimeLinkExpiresAt < now
        · exfalso
          have := congrArg Client.oneTimeLink h
          simp [oneTimeLinkSweepStep, hl, hd] at this
        · simp [oneTimeLinkSweepStep, hl, hd]
    · by_cases ht : t < now
      · exfalso
        have hE := expiresSweepStep_fires now c he t hx ht
        rw [hE] at h
        have := congrArg Client.enabled h
        rw [otlStep_enabled] at this
        simp [he] at this
      · have hE : expiresSweepStep now c = (c, false) :=
          expiresSweepStep_skips now c
            (by intro u hu; rw [hx] at hu; cases hu; exact Nat.le_of_not_lt ht)
        rw [hE] at h
        refine ⟨by simp [hE], by simp [hE], ?_⟩
        cases hl : c.oneTimeLink with
        | none => simp [oneTimeLinkSweepStep, hl]
        | some s =>
          by_cases hd : jsDateNum c.oneTimeLinkExpiresAt < now
          · exfalso
            have := congrArg Client.oneTimeLink h
            simp [oneTimeLinkSweepStep, hl, hd] at this
          · simp [oneTimeLinkSweepStep, hl, hd]
  · have hE : expiresSweepStep now c = (c, false) := by simp [expiresSweepStep, he]
    rw [hE] at h
    refine ⟨by simp [hE], by simp [hE], ?_⟩
    cases hl : c.oneTimeLink with
    | none => simp [oneTimeLinkSweepStep, hl]
    | some s =>
      by_cases hd : jsDateNum c.oneTimeLinkExpiresAt < now
      · exfalso
        have := congrArg Client.oneTimeLink h
        simp [oneTimeLinkSweepStep, hl, hd] at this
      · simp [oneTimeLinkSweepStep, hl, hd]

theorem cron_result_on (now : Time) (cfg : Config) :
    cronJobEveryMinute "true" "true" now cfg
      = ({ cfg with
           clients := (sweepClients (oneTimeLinkSweepStep now)
             ((sweepClients (expiresSweepStep now) cfg.clients).1)).1 },
         if (sweepClients (expiresSweepStep now) cfg.clients).2
            || (sweepClients (oneTimeLinkSweepStep now)
                  ((sweepClients (expiresSweepStep now) cfg.clients).1)).2
          then 1 else 0) := rfl

theorem cron_result_off (otl : String) (hotl : ¬ otl = "true") (now : Time) (cfg : Config) :
    cronJobEveryMinute "true" otl now cfg
      = ({ cfg with clients := (sweepClients (expiresSweepStep now) cfg.clients).1 },
         if (sweepClients (expiresSweepStep now) cfg.clients).2 then 1 else 0) := by
  simp [cronJobEveryMinute, hotl]

theorem updateFirst_getElem? {α : Type} (p : α → Bool) (f : α → α) :
    ∀ (l : List α) (i : Nat) (v : α), l[i]? = some v → p v = false →
      (updateFirst p f l)[i]? = some v
  | [], i, v => by simp
  | x :: xs, 0, v => fun hv hp => by
    simp only [List.getElem?_cons_zero, Option.some.injEq] at hv
    subst hv
    simp [updateFirst, hp]
  | x :: xs, i + 1, v => fun hv hp => by
    simp only [List.getElem?_cons_succ] at hv
    by_cases h : p x <;>
      simp [updateFirst, h, hv, updateFirst_getElem? p f xs i v hv hp]

theorem foldl_dump_unmatched (v : ClientView) :
    ∀ (lines : List String) (views : List ClientView) (i : Nat),
      views[i]? = some v →
      (∀ line ∈ lines, (jsSplit '\t' line).getD 0 "" ≠ v.publicKey) →
      (lines.foldl applyDumpLine views)[i]? = some v
  | [], views, i => fun hv _ => hv
  | line :: rest, views, i => fun hv hno => by
    have h1 : (applyDumpLine views line)[i]? = some v := by
      simp only [applyDumpLine]
      exact updateFirst_getElem? _ _ views i v hv
        (by
          have hx := hno line (by simp)
          rw [List.getD_eq_getElem?_getD] at hx
          simp [Ne.symm hx])
    exact foldl_dump_unmatched v rest (applyDumpLine views line) i h1
      fun l hl => hno l (by simp [hl])

theorem serverOfJson_serverToJson (s : Server) :
    serverOfJson (serverToJson s) = some s := by
  obtain ⟨pk, pub, addr, fa⟩ := s
  cases addr <;> cases fa <;> rfl

theorem clientOfJson_clientToJson (c : Client) :
    clientOfJson (clientToJson c) = some c := by
  obtain ⟨i, n, a, pk, pub, psk, ca, ua, ea, en, otl, otle⟩ := c
  cases pk <;> cases psk <;> cases ea <;> cases otl <;> cases otle <;> rfl

theorem clientsOfJson_map (l : List (String × Client)) :
    clientsOfJson (l.map fun kv => (kv.1, clientToJson kv.2)) = some l := by
  induction l with
  | nil => rfl
  | cons kv rest ih =>
    obtain ⟨k, c⟩ := kv
    simp [clientsOfJson, clientOfJson_clientToJson, ih]

theorem configOfJson_configToJson (cfg : Config) :
    configOfJson (configToJson cfg) = some cfg := by
  obtain ⟨server, clients⟩ := cfg
  simp [configToJson, configOfJson, List.lookup, serverOfJson_serverToJson,
    clientsOfJson_map]

/-! ## Claims -/

/-- Claim C1 (code bug).  The claim says `createClient` with a non-empty
name assigns the lowest integer-encoded address strictly between the
subnet's first and last address not already assigned to any peer.  In the
source, the allocation loop evaluates `Object.values(clients)` but no
identifier `clients` is in scope anywhere in the file, so the call throws a
`ReferenceError` instead: on `10.8.0.0/24` with an empty peer set the call
fails, whereas the address scan the claim (and upstream wg-easy, which scans
`config.clients`) describes would return `10.8.0.2`. -/
theorem c1_createClient_allocation_crashes :
    (createClient { server := exServer, clients := [] } "alice" none exKeys
        "id-1" 0 exSubnet).1
      = Except.error (.referenceError "clients")
    ∧ calculateNextIpSpec [] exSubnet = some "10.8.0.2" :=
  ⟨rfl, by decide⟩

set_option maxRecDepth 4000 in
/-- Claim C2 (code bug).  The claim says first boot produces a server whose
`address` field is the subnet's first address, a snapshot of shape
`{ server: { privateKey, publicKey, address }, clients: {} }`, and a
rendered `Address` line carrying that address.  The generated server object
instead stores the first address under the property `firstAddress` (object
shorthand) and has no `address` property, so the persisted JSON has key
`firstAddress` and the rendered interface block reads the absent
`config.server.address`, producing `Address = undefined`. -/
theorem c2_firstBoot_server_address_bug :
    (buildConfigFirstBoot exKeys exSubnet).server.address = none
    ∧ (buildConfigFirstBoot exKeys exSubnet).server.firstAddress = some "10.8.0.1"
    ∧ serverToJson (buildConfigFirstBoot exKeys exSubnet).server
        = .obj [("privateKey", .str "PRIV"), ("publicKey", .str "PUB"),
                ("firstAddress", .str "10.8.0.1")]
    ∧ renderConfigFile exEnv (buildConfigFirstBoot exKeys exSubnet)
        = "\n# Note: Do not edit this file directly.\n# Your changes will be overwritten!\n\n# Server\n[Interface]\nPrivateKey = PRIV\n"
          ++ "Address = undefined"
          ++ "\nListenPort = 51820\nPreUp = \nPostUp = \nPreDown = \nPostDown = \n" :=
  ⟨rfl, by decide, rfl, by decide⟩

/-- Claim C3.  Creating a peer with an empty name fails with the
validation error `Missing: Name`, and no key generation, no address
allocation and no persistence take place (the effect trace is empty and no
new snapshot is produced). -/
theorem c3_createClient_empty_name (cfg : Config) (expiredDate : Option Time)
    (keys : KeyTriple) (freshId : String) (now : Time) (sub : SubnetInfo) :
    createClient cfg "" expiredDate keys freshId now sub
      = (Except.error (.error "Missing: Name"), ([] : List Effect)) :=
  rfl

/-- Claim C4.  The daemon config rendered from a snapshot contains exactly
one peer block per enabled peer (one element of `peerSections` per client
passing the `enabled` filter, each the rendering of such a client) and no
block for any disabled peer, each peer block's allowed-IP clause is that
peer's single address with a `/32` suffix, and the snapshot with peer A
enabled and peer B disabled renders exactly one peer block, A's. -/
theorem c4_render_enabled_peers_only (cfg : Config) :
    (peerSections cfg).length = (cfg.clients.filter fun kv => kv.2.enabled).length
    ∧ (∀ kv, kv ∈ cfg.clients → kv.2.enabled = true →
        peerSection kv.1 kv.2 ∈ peerSections cfg)
    ∧ (∀ s, s ∈ peerSections cfg →
        ∃ kv, kv ∈ cfg.clients ∧ kv.2.enabled = true ∧ s = peerSection kv.1 kv.2)
    ∧ (∀ clientId c, ∃ p, peerSection clientId c
        = p ++ ("AllowedIPs = " ++ (c.address ++ "/32")))
    ∧ peerSections exCfgAB = [peerSection "idA" exClientA] := by
  refine ⟨?_, ?_, ?_, ?_, ?_⟩
  · simp [peerSections]
  · intro kv hkv hen
    exact List.mem_map_of_mem _ (List.mem_filter.mpr ⟨hkv, by simp [hen]⟩)
  · intro s hs
    obtain ⟨kv, hkv, rfl⟩ := List.mem_map.mp hs
    have hf := List.mem_filter.mp hkv
    exact ⟨kv, hf.1, by simpa using hf.2, rfl⟩
  · intro clientId c
    exact ⟨_, rfl⟩
  · rfl

/-- Witness for C4: at the concrete two-peer snapshot, the enabled peer A's
block is among the rendered peer blocks. -/
theorem c4_render_enabled_peers_only_witness :
    peerSection "idA" exClientA ∈ peerSections exCfgAB :=
  (c4_render_enabled_peers_only exCfgAB).2.1 ("idA", exClientA)
    (by simp [exCfgAB]) rfl

/-- Claim C5.  With the expiry feature toggle enabled, one run of
`cronJobEveryMinute` (i) disables every currently-enabled peer whose
`expiredAt` is set and in the past and stamps its `updatedAt`, (ii) leaves
every peer whose `expiredAt` is unset or in the future (and which the
one-time-link sweep does not touch) unchanged, and (iii, iv) calls
`saveConfig` at most once — exactly once when either sweep changed some
peer, and not at all when neither did. -/
theorem c5_cron_expiry_sweep (otl : String) (now : Time) (cfg : Config) :
    (∀ kv, kv ∈ cfg.clients → kv.2.enabled = true →
      ∀ t, kv.2.expiredAt = some t → t < now →
      ∃ c', (kv.1, c') ∈ (cronJobEveryMinute "true" otl now cfg).1.clients
        ∧ c'.enabled = false ∧ c'.updatedAt = now)
    ∧ (∀ kv, kv ∈ cfg.clients → kv.2.oneTimeLink = none →
        (∀ t, kv.2.expiredAt = some t → now ≤ t) →
        kv ∈ (cronJobEveryMinute "true" otl now cfg).1.clients)
    ∧ (cronJobEveryMinute "true" otl now cfg).2 ≤ 1
    ∧ ((cronJobEveryMinute "true" otl now cfg).2 = 0 ↔
        (cronJobEveryMinute "true" otl now cfg).1.clients = cfg.clients) := by
  by_cases hotl : otl = "true"
  · subst hotl
    rw [cron_result_on]
    simp only [sweepClients_fst, sweepClients_snd, List.map_map, Function.comp]
    refine ⟨?_, ?_, ?_, ?_⟩
    · intro kv hkv he t hx ht
      refine ⟨(oneTimeLinkSweepStep now (expiresSweepStep now kv.2).1).1, ?_, ?_, ?_⟩
      · exact List.mem_map_of_mem _ hkv
      · rw [otlStep_enabled, expiresSweepStep_fires now kv.2 he t hx ht]
      · rcases otlStep_updatedAt now (expiresSweepStep now kv.2).1 with hu | hu
        · rw [hu, expiresSweepStep_fires now kv.2 he t hx ht]
        · exact hu
    · intro kv hkv hl hfut
      have hkv' : (fun kv : String × Client =>
            (kv.1, (oneTimeLinkSweepStep now (expiresSweepStep now kv.2).1).1)) kv = kv := by
        cases kv with
        | mk k c =>
          simp [expiresSweepStep_skips now c hfut, otlStep_skips now c hl]
      rw [← hkv']
      exact List.mem_map_of_mem _ hkv
    · split <;> simp
    · constructor
      · intro h0
        have hb : ((cfg.clients.any fun kv => (expiresSweepStep now kv.2).2)
            || ((cfg.clients.map fun kv => (kv.1, (expiresSweepStep now kv.2).1)).any
                  fun kv => (oneTimeLinkSweepStep now kv.2).2)) = false := by
          by_contra hb
          rw [Bool.not_eq_false] at hb
          rw [if_pos hb] at h0
          exact one_ne_zero h0
        rw [Bool.or_eq_false_iff] at hb
        have hF1 := hb.1
        have hF2 := hb.2
        have hEfix : ∀ kv ∈ cfg.clients, (expiresSweepStep now kv.2).1 = kv.2 := by
          intro kv hkv
          exact expiresStep_of_flag_false now kv.2
            (by simpa using List.any_eq_false.mp hF1 kv hkv)
        have hmap1 : (cfg.clients.map fun kv => (kv.1, (expiresSweepStep now kv.2).1))
            = cfg.clients := by
          apply map_self_of_forall
          intro kv hkv
          cases kv with
          | mk k c => simp [hEfix (k, c) hkv]
        rw [hmap1] at hF2
        have hOfix : ∀ kv ∈ cfg.clients, (oneTimeLinkSweepStep now kv.2).1 = kv.2 := by
          intro kv hkv
          exact otlStep_of_flag_false now kv.2
            (by simpa using List.any_eq_false.mp hF2 kv hkv)
        apply map_self_of_forall
        intro kv hkv
        cases kv with
        | mk k c =>
          simp [hEfix (k, c) hkv, hOfix (k, c) hkv]
      · intro hcl
        have hfix := map_eq_self_forall hcl
        have hall : ∀ kv ∈ cfg.clients,
            (expiresSweepStep now kv.2).2 = false
            ∧ (expiresSweepStep now kv.2).1 = kv.2
            ∧ (oneTimeLinkSweepStep now kv.2).2 = false := by
          intro kv hkv
          have h2 := congrArg Prod.snd (hfix kv hkv)
          exact comp_fixed now kv.2 h2
        have hF1 : (cfg.clients.any fun kv => (expiresSweepStep now kv.2).2) = false := by
          rw [List.any_eq_false]
          intro kv hkv
          simp [(hall kv hkv).1]
        have hmap1 : (cfg.clients.map fun kv => (kv.1, (expiresSweepStep now kv.2).1))
            = cfg.clients := by
          apply map_self_of_forall
          intro kv hkv
          cases kv with
          | mk k c => simp [(hall (k, c) hkv).2.1]
        have hF2 : ((cfg.clients.map fun kv => (kv.1, (expiresSweepStep now kv.2).1)).any
              fun kv => (oneTimeLinkSweepStep now kv.2).2) = false := by
          rw [hmap1, List.any_eq_false]
          intro kv hkv
          simp [(hall kv hkv).2.2]
        rw [hF1, hF2]
        simp
  · rw [cron_result_off otl hotl now]
    simp only [sweepClients_fst, sweepClients_snd]
    refine ⟨?_, ?_, ?_, ?_⟩
    · intro kv hkv he t hx ht
      refine ⟨(expiresSweepStep now kv.2).1, ?_, ?_, ?_⟩
      · exact List.mem_map_of_mem _ hkv
      · rw [expiresSweepStep_fires now kv.2 he t hx ht]
      · rw [expiresSweepStep_fires now kv.2 he t hx ht]
    · intro kv hkv hl hfut
      have hkv' : (fun kv : String × Client =>
            (kv.1, (expiresSweepStep now kv.2).1)) kv = kv := by
        cases kv with
        | mk k c => simp [expiresSweepStep_skips now c hfut]
      rw [← hkv']
      exact List.mem_map_of_mem _ hkv
    · split <;> simp
    · constructor
      · intro h0
        have hF1 : (cfg.clients.any fun kv => (expiresSweepStep now kv.2).2) = false := by
          by_contra hb
          rw [Bool.not_eq_false] at hb
          rw [if_pos hb] at h0
          exact one_ne_zero h0
        apply map_self_of_forall
        intro kv hkv
        cases kv with
        | mk k c =>
          simp [expiresStep_of_flag_false now c
            (by simpa using List.any_eq_false.mp hF1 (k, c) hkv)]
      · intro hcl
        have hfix := map_eq_self_forall hcl
        have hF1 : (cfg.clients.any fun kv => (expiresSweepStep now kv.2).2) = false := by
          rw [List.any_eq_false]
          intro kv hkv
          have h2 := congrArg Prod.snd (hfix kv hkv)
          simp [expiresStep_flag_of_fixed now kv.2 h2]
        rw [hF1]
        simp

/-- Witness for C5: at a concrete snapshot holding a peer that expired at
time 100 (enabled) and one expiring at 999999, the sweep at time 1000
disables the expired peer and stamps its `updatedAt`. -/
theorem c5_cron_expiry_sweep_witness :
    ∃ c', ("e1", c') ∈ (cronJobEveryMinute "true" "false" 1000 exCfgExpiry).1.clients
      ∧ c'.enabled = false ∧ c'.updatedAt = 1000 :=
  (c5_cron_expiry_sweep "false" 1000 exCfgExpiry).1 ("e1", exClientExpired)
    (by simp [exCfgExpiry]) rfl 100 rfl (by decide)

/-- Claim C6 (counterexample).  The claim says `eraseOneTimeLink` nulls the
peer's `oneTimeLink`.  At a concrete peer holding the live token
`"abc123"`, the token is still non-null after the call: the assignment
`client.oneTimeLink = null` is commented out in the source. -/
theorem c6_eraseOneTimeLink_counterexample :
    ((eraseOneTimeLink exCfgOtl "c1" 5000).toOption.bind
        fun cfg' => cfg'.clients.lookup "c1").map Client.oneTimeLink
      ≠ some none := by
  decide

/-- Claim C6 (amended).  For every existing peer, `eraseOneTimeLink` leaves
`oneTimeLink` unchanged (so a non-null token stays non-null), sets
`oneTimeLinkExpiresAt` to ten seconds after now, and stamps `updatedAt`;
the token itself is only cleared later, by the one-time-link sweep, once
that expiry has passed. -/
theorem c6_eraseOneTimeLink_amended (cfg : Config) (clientId : String) (c : Client)
    (h : cfg.clients.lookup clientId = some c) (now : Time) :
    ∃ cfg', eraseOneTimeLink cfg clientId now = .ok cfg'
      ∧ cfg'.clients.lookup clientId
          = some { c with
                   oneTimeLinkExpiresAt := some (now + 10 * 1000), updatedAt := now } := by
  refine ⟨updateClientAt cfg clientId fun c0 =>
      { c0 with oneTimeLinkExpiresAt := some (now + 10 * 1000), updatedAt := now }, ?_, ?_⟩
  · simp [eraseOneTimeLink, getClient, h]
  · rw [lookup_updateClientAt, h]
    rfl

/-- Witness for C6 (amended), at the concrete peer with a live token:
after `eraseOneTimeLink` at time 5000 the token is untouched and its expiry
is 15000. -/
theorem c6_eraseOneTimeLink_amended_witness :
    ∃ cfg', eraseOneTimeLink exCfgOtl "c1" 5000 = .ok cfg'
      ∧ cfg'.clients.lookup "c1"
          = some { exClientOtl with
                   oneTimeLinkExpiresAt := some (5000 + 10 * 1000), updatedAt := 5000 } :=
  c6_eraseOneTimeLink_amended exCfgOtl "c1" exClientOtl rfl 5000

/-- Claim C8.  Any sequence of `enableClient`/`disableClient` calls on an
existing peer succeeds and leaves `id`, `publicKey`, `address` and every
other field except `enabled` and `updatedAt` unchanged; a single call at a
time strictly later than the peer's `updatedAt` sets `updatedAt` strictly
later than before. -/
theorem c8_toggle_frame (cfg : Config) (clientId : String) (c : Client)
    (h : cfg.clients.lookup clientId = some c) (ops : List (Bool × Time)) :
    (∃ cfg' c', applyToggles cfg clientId ops = .ok cfg'
      ∧ cfg'.clients.lookup clientId = some c'
      ∧ c'.id = c.id ∧ c'.publicKey = c.publicKey ∧ c'.address = c.address
      ∧ c'.name = c.name ∧ c'.privateKey = c.privateKey
      ∧ c'.preSharedKey = c.preSharedKey ∧ c'.createdAt = c.createdAt
      ∧ c'.expiredAt = c.expiredAt ∧ c'.oneTimeLink = c.oneTimeLink
      ∧ c'.oneTimeLinkExpiresAt = c.oneTimeLinkExpiresAt)
    ∧ (∀ b now, c.updatedAt < now →
        ∃ cfg₁ c₁, applyToggle cfg clientId (b, now) = .ok cfg₁
          ∧ cfg₁.clients.lookup clientId = some c₁
          ∧ c.updatedAt < c₁.updatedAt) := by
  constructor
  · induction ops generalizing cfg c with
    | nil =>
      exact ⟨cfg, c, rfl, h, rfl, rfl, rfl, rfl, rfl, rfl, rfl, rfl, rfl, rfl⟩
    | cons op rest ih =>
      obtain ⟨b, t⟩ := op
      have hstep : applyToggle cfg clientId (b, t)
          = .ok (updateClientAt cfg clientId fun c0 =>
              { c0 with enabled := b, updatedAt := t }) := by
        cases b <;> simp [applyToggle, enableClient, disableClient, getClient, h]
      have h1 : (updateClientAt cfg clientId fun c0 =>
            { c0 with enabled := b, updatedAt := t }).clients.lookup clientId
          = some { c with enabled := b, updatedAt := t } := by
        rw [lookup_updateClientAt, h]
        rfl
      obtain ⟨cfg', c', hrun, hlook, h2, h3, h4, h5, h6, h7, h8, h9, h10, h11⟩ := ih _ _ h1
      refine ⟨cfg', c', ?_, hlook, h2, h3, h4, h5, h6, h7, h8, h9, h10, h11⟩
      simp [applyToggles, hstep, hrun]
  · intro b now hlt
    refine ⟨updateClientAt cfg clientId fun c0 =>
        { c0 with enabled := b, updatedAt := now },
      { c with enabled := b, updatedAt := now }, ?_, ?_, ?_⟩
    · cases b <;> simp [applyToggle, enableClient, disableClient, getClient, h]
    · rw [lookup_updateClientAt, h]
      rfl
    · exact hlt

/-- Witness for C8: a disable-then-enable cycle on the concrete peer A
leaves all fields but `enabled`/`updatedAt` unchanged. -/
theorem c8_toggle_frame_witness :
    ∃ cfg' c', applyToggles exCfgAB "idA" [(false, 5), (true, 10)] = .ok cfg'
      ∧ cfg'.clients.lookup "idA" = some c'
      ∧ c'.id = exClientA.id ∧ c'.publicKey = exClientA.publicKey
      ∧ c'.address = exClientA.address ∧ c'.name = exClientA.name
      ∧ c'.privateKey = exClientA.privateKey
      ∧ c'.preSharedKey = exClientA.preSharedKey
      ∧ c'.createdAt = exClientA.createdAt ∧ c'.expiredAt = exClientA.expiredAt
      ∧ c'.oneTimeLink = exClientA.oneTimeLink
      ∧ c'.oneTimeLinkExpiresAt = exClientA.oneTimeLinkExpiresAt :=
  (c8_toggle_frame exCfgAB "idA" exClientA rfl [(false, 5), (true, 10)]).1

/-- Claim C10.  `updateClientName` performs no validation of the new name:
for every existing peer and every string (the empty string included) it
succeeds, stores the string as the peer's name, stamps `updatedAt` and
persists the updated snapshot; its only failure mode is the 404
`Client Not Found` error, never a validation error — in contrast to
creation, which rejects an empty name. -/
theorem c10_rename_no_validation (cfg : Config) (clientId newName : String) (now : Time) :
    (∀ c, cfg.clients.lookup clientId = some c →
      updateClientName cfg clientId newName now
        = .ok (updateClientAt cfg clientId fun c0 =>
            { c0 with name := newName, updatedAt := now })
      ∧ (updateClientAt cfg clientId fun c0 =>
            { c0 with name := newName, updatedAt := now }).clients.lookup clientId
          = some { c with name := newName, updatedAt := now })
    ∧ (cfg.clients.lookup clientId = none →
        updateClientName cfg clientId newName now
          = .error (.serverError ("Client Not Found: " ++ clientId) 404))
    ∧ (∀ e, updateClientName cfg clientId newName now = .error e →
        e = .serverError ("Client Not Found: " ++ clientId) 404)
    ∧ (∀ (keys : KeyTriple) (freshId : String) (ed : Option Time) (sub : SubnetInfo),
        (createClient cfg "" ed keys freshId now sub).1
          = .error (.error "Missing: Name")) := by
  refine ⟨?_, ?_, ?_, ?_⟩
  · intro c h
    constructor
    · simp [updateClientName, getClient, h]
    · rw [lookup_updateClientAt, h]
      rfl
  · intro h
    simp [updateClientName, getClient, h]
  · intro e he
    cases hl : cfg.clients.lookup clientId with
    | none =>
      simp [updateClientName, getClient, hl] at he
      exact he.symm
    | some c =>
      simp [updateClientName, getClient, hl] at he
  · intro keys freshId ed sub
    rfl

/-- Witness for C10: renaming the concrete peer A to the empty string
succeeds and stores the empty name with a stamped `updatedAt`. -/
theorem c10_rename_no_validation_witness :
    updateClientName exCfgAB "idA" "" 7
      = .ok (updateClientAt exCfgAB "idA" fun c0 =>
          { c0 with name := "", updatedAt := 7 })
    ∧ (updateClientAt exCfgAB "idA" fun c0 =>
          { c0 with name := "", updatedAt := 7 }).clients.lookup "idA"
        = some { exClientA with name := "", updatedAt := 7 } :=
  (c10_rename_no_validation exCfgAB "idA" "" 7).1 exClientA rfl

/-- Claim C9.  `backupConfiguration` followed by `restoreConfiguration` on
an unmodified snapshot reproduces the snapshot exactly: parsing the backup,
persisting the parsed object and reloading the cache from the persisted
file yields a `Config` structurally equal to the original. -/
theorem c9_backup_restore_roundtrip (cfg : Config) :
    restoreConfiguration (backupConfiguration cfg) = some cfg := by
  simp [restoreConfiguration, backupConfiguration, configOfJson_configToJson]

/-- Claim C7.  The status merge matches each dump record to a registry
view by public key: a record matching no view leaves the view list
unchanged; a matching record overwrites the first matching view's live
fields, with a last-handshake field of literal `"0"` yielding
`latestHandshakeAt = null` (not epoch zero) and an endpoint field of
`"(none)"` yielding `endpoint = null`; and a registry view matched by no
line of the dump survives the whole merge with its initial all-null live
fields. -/
theorem c7_status_merge :
    (∀ (views : List ClientView) (line pk psk ep ai h rx tx ka : String),
      jsSplit '\t' line = [pk, psk, ep, ai, h, rx, tx, ka] →
      ((∀ v ∈ views, v.publicKey ≠ pk) → applyDumpLine views line = views)
      ∧ (∀ (v1 : List ClientView) (v : ClientView) (v2 : List ClientView),
          views = v1 ++ v :: v2 → (∀ u ∈ v1, u.publicKey ≠ pk) → v.publicKey = pk →
          applyDumpLine views line
            = v1 ++ { v with
                      latestHandshakeAt := mergeHandshake h,
                      endpoint := if ep = "(none)" then none else some ep,
                      transferRx := jsNumber rx,
                      transferTx := jsNumber tx,
                      persistentKeepalive := some ka } :: v2))
    ∧ mergeHandshake "0" = none
    ∧ (∀ (cfg : Config) (dump : String) (i : Nat) (v : ClientView),
        (initialViews cfg)[i]? = some v →
        (∀ line ∈ (jsSplit '\n' (jsTrim dump)).drop 1,
          (jsSplit '\t' line).getD 0 "" ≠ v.publicKey) →
        (getClients cfg dump)[i]? = some v
        ∧ v.latestHandshakeAt = none ∧ v.endpoint = none ∧ v.transferRx = none
        ∧ v.transferTx = none ∧ v.persistentKeepalive = none) := by
  refine ⟨?_, rfl, ?_⟩
  · intro views line pk psk ep ai h rx tx ka hsplit
    constructor
    · intro hnone
      simp only [applyDumpLine, hsplit]
      apply updateFirst_no_match
      intro u hu
      simp [hnone u hu]
    · intro v1 v v2 hviews hv1 hveq
      subst hviews
      simp only [applyDumpLine, hsplit]
      have hrw := updateFirst_first_match
        (fun u : ClientView => u.publicKey = ([pk, psk, ep, ai, h, rx, tx, ka].getD 0 ""))
        (fun u : ClientView =>
          { u with
            latestHandshakeAt := mergeHandshake ([pk, psk, ep, ai, h, rx, tx, ka].getD 4 ""),
            endpoint := if ([pk, psk, ep, ai, h, rx, tx, ka].getD 2 "") = "(none)" then none
              else some ([pk, psk, ep, ai, h, rx, tx, ka].getD 2 ""),
            transferRx := jsNumber ([pk, psk, ep, ai, h, rx, tx, ka].getD 5 ""),
            transferTx := jsNumber ([pk, psk, ep, ai, h, rx, tx, ka].getD 6 ""),
            persistentKeepalive := some ([pk, psk, ep, ai, h, rx, tx, ka].getD 7 "") })
        v (by simp [hveq]) v1 (fun u hu => by simp [hv1 u hu]) v2
      rw [hrw]
      simp
  · intro cfg dump i v hv hno
    have hmem : v ∈ initialViews cfg := List.getElem?_mem hv
    obtain ⟨kv, _, rfl⟩ := List.mem_map.mp hmem
    exact ⟨foldl_dump_unmatched _ _ _ i hv hno, rfl, rfl, rfl, rfl, rfl⟩

/-- Witness for C7: merging a concrete dump record with handshake `"0"`
and endpoint `"(none)"` onto the view of peer A (public key `PKA`)
overwrites exactly its live fields. -/
theorem c7_status_merge_witness :
    applyDumpLine [toClientView ("idA", exClientA)] "PKA\tx\t(none)\ty\t0\t11\t22\toff"
      = [] ++ { toClientView ("idA", exClientA) with
                latestHandshakeAt := mergeHandshake "0",
                endpoint := if "(none)" = "(none)" then none
                  else some "(none)",
                transferRx := jsNumber "11",
                transferTx := jsNumber "22",
                persistentKeepalive := some "off" } :: [] :=
  (c7_status_merge.1 [toClientView ("idA", exClientA)]
      "PKA\tx\t(none)\ty\t0\t11\t22\toff" "PKA" "x" "(none)" "y" "0" "11" "22" "off"
      (by decide)).2 [] (toClientView ("idA", exClientA)) [] rfl
    (by simp) rfl

end WGEasy
